import Mathlib

/-!
Verification of the Evergreen grower dashboard (src/app_web.py).

The development shallowly embeds the pure logic of the web app:

* calendar dates are modelled as integers counting days since 1970-01-01
  (the proleptic Gregorian calendar, as used by Python `datetime.date`;
  `weekday()` with Monday = 0);
* SQLite cell values are `SqlVal` (NULL, INTEGER or TEXT);
* Python `str.split` / `datetime.strptime(s, "%Y-%m-%d")` / `int(...)`
  are embedded as executable functions over `List Char`;
* the binary64 floating-point arithmetic of `total * 1.05` etc. is embedded
  exactly over the integers: a product is rounded to 53 significant bits
  with ties to even, which is IEEE round-to-nearest; overflow past the
  double range (absolute values of 2^1024 and beyond, unreachable for any
  realistic plant count) is not modelled, and dates are idealised as
  unbounded (Python raises OverflowError outside years 1..9999);
* fallible computations return `PyResult` (`ok` or `error`), mirroring a
  Python exception escaping the function.
-/

/-- Python `date.weekday()`: Monday is 0, Sunday is 6.  Day 0 of our epoch
(1970-01-01) was a Thursday, hence the offset 3.  `Int` `%` is euclidean
(non-negative remainder), matching Python `%` for a positive modulus. -/
def pyWeekday (d : Int) : Int := (d + 3) % 7

/-- Days since 1970-01-01 of the Gregorian date y-m-d (requires `1 ≤ y`,
`1 ≤ m ≤ 12`, valid day; callers validate).  Standard civil-from-days
inverse algorithm, all intermediate arithmetic in `Nat`. -/
def daysFromCivil (y m d : Nat) : Int :=
  let y' := if m ≤ 2 then y - 1 else y
  let era := y' / 400
  let yoe := y' % 400
  let mp := if 2 < m then m - 3 else m + 9
  let doy := (153 * mp + 2) / 5 + (d - 1)
  let doe := yoe * 365 + yoe / 4 - yoe / 100 + doy
  (era * 146097 + doe : Int) - 719468

/-- Gregorian leap-year test, as validated by `datetime.date`. -/
def isLeapYear (y : Nat) : Bool := y % 4 = 0 && (y % 100 ≠ 0 || y % 400 = 0)

/-- Number of days of month `m` in year `y` (Python `datetime` validation). -/
def daysInMonth (y m : Nat) : Nat :=
  if m = 2 then (if isLeapYear y then 29 else 28)
  else if m = 4 ∨ m = 6 ∨ m = 9 ∨ m = 11 then 30
  else 31

/-- Splitting a character list at every separator character, like Python
`str.split(sep)` and Lean `String.split`: `n` separators give `n+1` groups,
empty groups included. -/
def splitCL (p : Char → Bool) (l : List Char) : List (List Char) :=
  l.foldr
    (fun c acc =>
      if p c then [] :: acc
      else
        match acc with
        | [] => [[c]]
        | g :: gs => (c :: g) :: gs)
    [[]]

/-- Python `str.split()` with no argument: split on whitespace runs and
drop empty groups (so the empty string yields `[]`). -/
def pySplitWhitespace (l : List Char) : List (List Char) :=
  (splitCL Char.isWhitespace l).filter (fun g => g ≠ [])

/-- Numeric value of a list of decimal digits (most significant first). -/
def digitsToNat (l : List Char) : Nat :=
  l.foldl (fun a c => 10 * a + (c.toNat - 48)) 0

/-- Model of `datetime.strptime(tok, "%Y-%m-%d").date()` on a single token:
`%Y` is exactly four digits, `%m` and `%d` are one or two digits, the month
must be 1..12 and the day valid for the month, and the year at least 1
(`datetime.MINYEAR`); any other shape raises, modelled as `none`.  ASCII
digits only (Python also accepts other Unicode decimal digits). -/
def parseDateToken (tok : List Char) : Option Int :=
  match splitCL (fun c => c == '-') tok with
  | [ys, ms, ds] =>
    if ys.length = 4 ∧ ys.all Char.isDigit ∧
       1 ≤ ms.length ∧ ms.length ≤ 2 ∧ ms.all Char.isDigit ∧
       1 ≤ ds.length ∧ ds.length ≤ 2 ∧ ds.all Char.isDigit then
      let y := digitsToNat ys
      let m := digitsToNat ms
      let d := digitsToNat ds
      if 1 ≤ y ∧ 1 ≤ m ∧ m ≤ 12 ∧ 1 ≤ d ∧ d ≤ daysInMonth y m then
        some (daysFromCivil y m d)
      else none
    else none
  | _ => none

/-- SQLite storage classes relevant to this app: NULL, INTEGER and TEXT. -/
inductive SqlVal where
  | null
  | int (i : Int)
  | text (s : String)
deriving DecidableEq, Repr

/-- Python `str(v)` of a fetched cell: `str(None)` is `"None"`. -/
def pyStr : SqlVal → String
  | .null => "None"
  | .int i => toString i
  | .text s => s

/-- Model of `_parse_date_ymd` (src/app_web.py:660-664):
`datetime.strptime(str(s).split()[0], "%Y-%m-%d").date()` with every
exception (empty split, bad format, invalid date) caught and turned
into `None`. -/
def _parse_date_ymd (s : SqlVal) : Option Int :=
  match pySplitWhitespace (pyStr s).toList with
  | [] => none
  | tok :: _ => parseDateToken tok

/-- Valid spelling of a Python `int()` digit run: decimal digits with
single underscores allowed strictly between digits (PEP 515). -/
def pyIntDigitRun : List Char → Bool
  | [] => false
  | c :: rest => c.isDigit && pyIntDigitRunAux rest
where
  pyIntDigitRunAux : List Char → Bool
    | [] => true
    | '_' :: rest =>
      (match rest with
       | [] => false
       | c :: rest' => c.isDigit && pyIntDigitRunAux rest')
    | c :: rest => c.isDigit && pyIntDigitRunAux rest

/-- Removal of leading and trailing whitespace, like Python `str.strip()`. -/
def trimCL (l : List Char) : List Char :=
  ((l.dropWhile Char.isWhitespace).reverse.dropWhile Char.isWhitespace).reverse

/-- Python `int(s)` on a string: optional surrounding whitespace, optional
sign, then a digit run; anything else raises `ValueError` (`none`).
ASCII digits only. -/
def pyIntOfString (s : String) : Option Int :=
  let t := trimCL s.toList
  match t with
  | '+' :: rest => if pyIntDigitRun rest then some (digitsToNat (rest.filter (fun c => c ≠ '_'))) else none
  | '-' :: rest => if pyIntDigitRun rest then some (-(digitsToNat (rest.filter (fun c => c ≠ '_')) : Int)) else none
  | l => if pyIntDigitRun l then some (digitsToNat (l.filter (fun c => c ≠ '_'))) else none

/-- Result of a Python computation: a value, or an uncaught exception
carrying a message. -/
inductive PyResult (α : Type) where
  | ok (val : α)
  | error (msg : String)
deriving DecidableEq, Repr

/-- Model of `int(v or 0)` on a fetched cell `v`: NULL and the empty string
are falsy and give 0, an INTEGER is returned as is, a numeric TEXT is
parsed, and a non-numeric TEXT raises `ValueError`. -/
def pyIntOfCell : SqlVal → PyResult Int
  | .null => .ok 0
  | .int i => .ok i
  | .text s =>
    if s = "" then .ok 0
    else
      match pyIntOfString s with
      | some v => .ok v
      | none => .error "invalid literal for int()"

/-- Number of binary digits of `n` (0 for 0), by fuel-indexed halving so the
kernel can evaluate it. -/
def bitLenAux : Nat → Nat → Nat
  | 0, _ => 0
  | fuel + 1, n => if n = 0 then 0 else bitLenAux fuel (n / 2) + 1

/-- Number of binary digits of `n`: `2 ^ (bitLen n - 1) ≤ n < 2 ^ bitLen n`
for positive `n`. -/
def bitLen (n : Nat) : Nat := bitLenAux n n

/-- Round `a / b` (with `b > 0`) to the nearest natural number, ties to
even — the rounding used both by IEEE-754 round-to-nearest and by Python 3
`round`. -/
def roundHalfEven (a b : Nat) : Nat :=
  let q := a / b
  let r := a % b
  if 2 * r < b then q
  else if b < 2 * r then q + 1
  else if q % 2 = 0 then q else q + 1

/-- Round the integer `t` to the nearest binary64 value (exact below 2^53;
above that the low bits are rounded away, ties to even).  This is the
conversion CPython applies to a Python `int` operand of a `float`
multiplication.  Overflow to infinity is not modelled. -/
def doubleOfInt (t : Int) : Int :=
  let a := t.natAbs
  let L := bitLen a
  if L ≤ 53 then t
  else
    let sh := L - 53
    let m := roundHalfEven a (2 ^ sh) * 2 ^ sh
    if t < 0 then -(m : Int) else (m : Int)

/-- Mantissa of the binary64 value nearest to `a / b` for `1 ≤ a / b < 2`:
the integer nearest `a * 2^52 / b`, ties to even.  Used for the exact
values of the program's float literals. -/
def doubleMantissaOfRat (a b : Nat) : Nat := roundHalfEven (a * 2 ^ 52) b

/-- Mantissa (times `2 ^ (-52)`) of the binary64 literal `1.05`. -/
def c105 : Nat := doubleMantissaOfRat 21 20
/-- Mantissa (times `2 ^ (-52)`) of the binary64 literal `1.10`. -/
def c110 : Nat := doubleMantissaOfRat 11 10
/-- Mantissa (times `2 ^ (-52)`) of the binary64 literal `1.15`. -/
def c115 : Nat := doubleMantissaOfRat 23 20
/-- Mantissa (times `2 ^ (-52)`) of the binary64 literal `1.20`. -/
def c120 : Nat := doubleMantissaOfRat 6 5

/-- Model of `int(round(t * c))` where `t` is a Python int and `c` a float
with value `cnum * 2^(-52)`, `2^52 ≤ cnum < 2^53` (the program's literals
1.05 .. 1.20): `t` is converted to binary64, the product is rounded to 53
significant bits (IEEE round-to-nearest, ties to even), and Python `round`
then rounds the resulting double to the nearest integer, ties to even.
`int` of that integer is the identity. -/
def pyScale (t : Int) (cnum : Nat) : Int :=
  let P := doubleOfInt t * (cnum : Int)
  let a := P.natAbs
  let L := bitLen a
  let av := if L ≤ 53 then a else roundHalfEven a (2 ^ (L - 53)) * 2 ^ (L - 53)
  let q := roundHalfEven av (2 ^ 52)
  if P < 0 then -(q : Int) else (q : Int)

/-- Nine weeks, the app's fixed flower-to-harvest cycle
(src/app_web.py:655). -/
def NINE_WEEKS : Int := 9

/-- Python `timedelta(weeks = w)` measured in days. -/
def timedeltaWeeks (w : Int) : Int := 7 * w

/-- Projected harvest date of the clone forecast:
`harvest = flower_date + timedelta(weeks=NINE_WEEKS)` (src/app_web.py:698). -/
def clone_harvest (flower : Int) : Int := flower + timedeltaWeeks NINE_WEEKS

/-- Clone-start date: `clone_start = harvest - timedelta(weeks=NINE_WEEKS)`
(src/app_web.py:699). -/
def clone_start_of (flower : Int) : Int := clone_harvest flower - timedeltaWeeks NINE_WEEKS

/-- Week bucket of a record:
`week_start = clone_start - timedelta(days=clone_start.weekday())`
(src/app_web.py:700), the Monday of the clone-start week. -/
def week_start_of (flower : Int) : Int :=
  clone_start_of flower - pyWeekday (clone_start_of flower)

/-- Monday of the current week:
`start_of_this_week = today - timedelta(days=today.weekday())`
(src/app_web.py:689). -/
def start_of_this_week (today : Int) : Int := today - pyWeekday today

/-- Cutoff of the forecast:
`earliest_week_start = start_of_this_week - timedelta(weeks=max(0, pw))`
(src/app_web.py:694). -/
def earliest_week_start (today pw : Int) : Int :=
  start_of_this_week today - timedeltaWeeks (max 0 pw)

/-- Model of `get_clone_source_rows` (src/app_web.py:666-683), on the
`records` table branch: each row's `flower_date` is parsed with
`_parse_date_ymd` and its `plants` with `int(... or 0)`; rows where both
are truthy (date parsed and count nonzero) are kept in order.  A
non-numeric `plants` raises `ValueError` in both the `try` and the
`except` arm, so the exception escapes the function. -/
def get_clone_source_rows : List (SqlVal × SqlVal) → PyResult (List (Int × Int))
  | [] => .ok []
  | r :: rest =>
    let flower := _parse_date_ymd r.1
    match pyIntOfCell r.2 with
    | .error e => .error e
    | .ok pl =>
      match get_clone_source_rows rest with
      | .error e => .error e
      | .ok acc =>
        .ok (match flower with
             | some f => if pl = 0 then acc else (f, pl) :: acc
             | none => acc)

/-- One output row of the clone-demand forecast (src/app_web.py:706-714);
`week` and `harvest_week` are kept as day numbers (the page renders them
with `isoformat()`). -/
structure CloneEntry where
  week : Int
  harvest_week : Int
  plants : Int
  p5 : Int
  p10 : Int
  p15 : Int
  p20 : Int
deriving DecidableEq, Repr

/-- Output row built from a week bucket and its plant total. -/
def mkCloneEntry (wk total : Int) : CloneEntry :=
  { week := wk
    harvest_week := wk + timedeltaWeeks NINE_WEEKS
    plants := total
    p5 := pyScale total c105
    p10 := pyScale total c110
    p15 := pyScale total c115
    p20 := pyScale total c120 }

/-- Python-dict insertion: add `v` to the value at key `k`, or append the
key at the end (`buckets[week_start] = buckets.get(week_start, 0) + plants`,
src/app_web.py:702). -/
def updateBucket : List (Int × Int) → Int → Int → List (Int × Int)
  | [], k, v => [(k, v)]
  | (k0, v0) :: rest, k, v =>
    if k0 = k then (k0, v0 + v) :: rest else (k0, v0) :: updateBucket rest k v

/-- The bucket-filling loop of `compute_clone_demand_grouped`
(src/app_web.py:696-702), folded over the source rows with accumulator
`bs`: each record's week bucket receives its plant count if the bucket is
at or after the cutoff. -/
def bucketsFoldAux (earliest : Int) (bs : List (Int × Int)) :
    List (Int × Int) → List (Int × Int)
  | [] => bs
  | fp :: rest =>
    bucketsFoldAux earliest
      (if earliest ≤ week_start_of fp.1 then updateBucket bs (week_start_of fp.1) fp.2 else bs)
      rest

/-- The filled bucket dictionary, as an insertion-ordered association list. -/
def bucketsFold (earliest : Int) (raw : List (Int × Int)) : List (Int × Int) :=
  bucketsFoldAux earliest [] raw

/-- Model of `compute_clone_demand_grouped` (src/app_web.py:685-715),
parameterised by `today` and the `past_weeks` lookback (already an int in
the program, so `int(past_weeks)` never raises) and by the fetched
`(flower_date, plants)` rows. The buckets are emitted sorted by week
(`sorted(buckets.items())`). -/
def compute_clone_demand_grouped (today pw : Int) (rows : List (SqlVal × SqlVal)) :
    PyResult (List CloneEntry) :=
  match get_clone_source_rows rows with
  | .error e => .error e
  | .ok raw =>
    if raw = [] then .ok []
    else
      .ok ((List.insertionSort (fun a b : Int × Int => a.1 ≤ b.1)
              (bucketsFold (earliest_week_start today pw) raw)).map
            (fun kv => mkCloneEntry kv.1 kv.2))

/-- Clamping of the advisor's week input:
`w = max(1, min(int(week or 1), 10))` (src/app_web.py:856); `week` is
already an int, and `week or 1` replaces a falsy 0 by 1. -/
def pyClampWeek (week : Int) : Int :=
  max 1 (min (if week = 0 then 1 else week) 10)

/-- The `"athena"` advice table of `local_heuristic_advice`
(src/app_web.py:858-869), weeks 1..10. -/
def athenaTable : List String :=
  [ "Transplant support, low EC 1.6–1.8, silica light, no heavy PK.",
    "Ramp EC 1.8–2.1, maintain Ca/Mg, monitor runoff.",
    "EC 2.0–2.2; maintain VPD 1.1–1.3; early defoliate if dense.",
    "Hold EC ~2.2; introduce slight PK bump; watch tip burn.",
    "PK push begins; EC 2.2–2.4; ensure drain 10–20%.",
    "Peak PK; watch K/Ca balance; keep pH 5.7–6.1 (hydro) / 5.9–6.3 (coco).",
    "Begin taper 5–10%; reduce N; maintain K and Mg.",
    "Further taper; prep flush strategy; IPM only if needed.",
    "Flush or low EC; finishers only; reduce humidity to avoid mold.",
    "Harvest window; keep temps lower at night; darkness optional." ]

/-- The `"salts"` advice table of `local_heuristic_advice`
(src/app_web.py:870-881), weeks 1..10. -/
def saltsTable : List String :=
  [ "Low EC start 1.6–1.8; Ca/Mg 150–200 ppm; silica minimal.",
    "EC 1.9–2.1; keep N:P:K balanced; record runoff.",
    "EC 2.0–2.2; watch deficiency; increase airflow.",
    "Hold EC ~2.2; slight PK; ensure distribution.",
    "Increase PK; EC 2.2–2.4; avoid overwatering.",
    "Peak PK; ensure sulfur for terps; monitor leaves.",
    "Start taper 5–10%; lower N; keep K steady.",
    "Taper more; watch fade; avoid late N spikes.",
    "Flush/finishers; target runoff EC ~ input.",
    "Harvest; avoid foliar; prep dry room." ]

/-- Table selection `base["athena" if program=="athena" else "salts"]`
(src/app_web.py:883). -/
def advice_table (program : String) : List String :=
  if program = "athena" then athenaTable else saltsTable

/-- The selected advice line `tip = table[w-1]` (src/app_web.py:884) with
the clamped week; the index is always in range, so the `getD` default is
unreachable. -/
def adviceTip (program : String) (week : Int) : String :=
  (advice_table program).getD ((pyClampWeek week) - 1).toNat ""

/-- Does `pat` occur at the start of `l`?  (Python prefix test, over
characters.) -/
def startsWithCL : List Char → List Char → Bool
  | [], _ => true
  | _ :: _, [] => false
  | p :: ps, c :: cs => p == c && startsWithCL ps cs

/-- Python substring containment `pat in l`, over characters. -/
def containsCL (pat : List Char) : List Char → Bool
  | [] => startsWithCL pat []
  | c :: cs => startsWithCL pat (c :: cs) || containsCL pat cs

/-- Remediation line appended when the notes mention a burn
(src/app_web.py:888). -/
def burnLine : String := "\n• Tip burn: drop EC by 0.2–0.3, increase runoff to ~20%."

/-- Remediation line appended when the notes mention pale or yellow leaves
(src/app_web.py:889). -/
def paleLine : String := "\n• Pale leaves: check N & Mg, add 30–50 ppm Mg."

/-- Remediation line appended when the notes mention a lockout or high EC
(src/app_web.py:890). -/
def lockoutLine : String := "\n• Lockout: reset low EC feed; verify pH/runoff."

/-- Python `str.lower`, restricted to ASCII (the searched keywords are all
ASCII). -/
def pyLowerCL (s : String) : List Char := s.toList.map Char.toLower

/-- Keyword annotations of `local_heuristic_advice` (src/app_web.py:885-890):
with nonempty notes, the lowercased notes are scanned for `"burn"`,
`"pale"`/`"yellow"` and `"lockout"`/`"high ec"`, appending the matching
remediation lines in that order. -/
def advice_extra (notes : String) : String :=
  if notes = "" then ""
  else
    let n := pyLowerCL notes
    (if containsCL "burn".toList n then burnLine else "") ++
    ((if containsCL "pale".toList n || containsCL "yellow".toList n then paleLine else "") ++
     (if containsCL "lockout".toList n || containsCL "high ec".toList n then lockoutLine else ""))

/-- Python `str.capitalize`: first character uppercased, the rest
lowercased (ASCII). -/
def pyCapitalize (s : String) : String :=
  match s.toList with
  | [] => ""
  | c :: rest => String.mk (c.toUpper :: rest.map Char.toLower)

/-- Model of `local_heuristic_advice` (src/app_web.py:855-891): the header
with the capitalized program and clamped week, the advice line for the
clamped week, and the keyword annotations. -/
def local_heuristic_advice (program : String) (week : Int) (notes : String) : String :=
  "Program: " ++ pyCapitalize program ++ " | Week " ++ toString (pyClampWeek week) ++ "\n" ++
    adviceTip program week ++ advice_extra notes

/-- One row of the `records` table (src/app_web.py:164-169):
`id INTEGER PRIMARY KEY AUTOINCREMENT, room TEXT, plants INTEGER,
strain TEXT, flower_date TEXT, planned INTEGER DEFAULT 0`.  The `plants`
and `flower_date` cells keep their raw SQLite value (an uploaded database
may hold anything); `planned` may be NULL. -/
structure DbRecord where
  id : Int
  room : String
  plants : SqlVal
  strain : String
  flower_date : SqlVal
  planned : Option Int
deriving DecidableEq, Repr

/-- Model of the `toggle_planned` handler (src/app_web.py:353-364): fetch
`COALESCE(planned,0)` of the first row with the given id; if such a row
exists, set `planned` of every row with that id to 0 when the fetched
value was 1 and to 1 otherwise; with no matching row, nothing changes. -/
def toggle_planned (rid : Int) (db : List DbRecord) : List DbRecord :=
  match db.find? (fun r => r.id == rid) with
  | none => db
  | some row =>
    let newVal : Int := if row.planned.getD 0 = 1 then 0 else 1
    db.map (fun r => if r.id = rid then { r with planned := some newVal } else r)

/-- One displayed row of the dashboard (src/app_web.py:251-267); `harvest`
and `days` are `none` when the flower date did not parse (rendered as
empty strings). -/
structure IndexRow where
  id : Int
  room : String
  plants : SqlVal
  strain : String
  flower_date : SqlVal
  harvest : Option Int
  days : Option Int
  planned : Int
deriving DecidableEq, Repr

/-- Flower-date parsing of the `index` handler (src/app_web.py:256-259):
`datetime.strptime((fd or "").split()[0], "%Y-%m-%d").date()` with every
exception caught (`fdate = None`).  A NULL cell becomes `""` whose empty
split raises `IndexError`; an INTEGER cell has no `.split` and raises
`AttributeError`; both are caught. -/
def index_parse_flower : SqlVal → Option Int
  | .text s =>
    (match pySplitWhitespace s.toList with
     | [] => none
     | tok :: _ => parseDateToken tok)
  | .null => none
  | .int _ => none

/-- Row list of the `index` handler (src/app_web.py:251-267) for a given
`today` and the `future=1` flag: the harvest date is the flower date plus
nine weeks, rows whose harvest has passed are skipped in future-only mode,
and rows without a parsed date are always kept with blank harvest and
days.  (The SQL `ORDER BY id DESC` ordering is presentational and not
modelled; rows are processed in list order.) -/
def index_rows (today : Int) (future_only : Bool) (db : List DbRecord) : List IndexRow :=
  db.filterMap (fun r =>
    match index_parse_flower r.flower_date with
    | some fd =>
      let harvest := fd + timedeltaWeeks 9
      if future_only ∧ harvest < today then none
      else
        some { id := r.id, room := r.room, plants := r.plants, strain := r.strain,
               flower_date := r.flower_date, harvest := some harvest,
               days := some (harvest - today), planned := r.planned.getD 0 }
    | none =>
      some { id := r.id, room := r.room, plants := r.plants, strain := r.strain,
             flower_date := r.flower_date, harvest := none, days := none,
             planned := r.planned.getD 0 })

/-- Modelled from the spec: the derived flowering-week number, which no
file under src/ computes (it lives in the other near-duplicate versions
of the app).  Per the spec,
`week = clamp(1..9, floor((today - flower_date)/7) + 1)`, and an
unparseable flowering date defaults to week 1 instead of failing the
request.  `Int` division is euclidean, which agrees with Python's floor
division `//` for the positive divisor 7. -/
def record_week (today : Int) (flower : Option Int) : Int :=
  match flower with
  | none => 1
  | some fd => max 1 (min 9 ((today - fd) / 7 + 1))

/-- Rounding to the nearest natural number with ties away from zero, for
`a / b` with `b > 0` — the rounding the spec asserts for the forecast's
scaled totals ("ties rounding away from zero per standard rounding").
Stated from the spec's words, for comparison with the program's `pyScale`. -/
def roundHalfAwayPos (a b : Nat) : Nat :=
  if b ≤ 2 * (a % b) then a / b + 1 else a / b

/-- Plant total of week bucket `w` over the parsed source rows: the sum of
the plant counts of the records whose clone-start week floors to `w`. -/
def bucketTotal (raw : List (Int × Int)) (w : Int) : Int :=
  ((raw.filter (fun fp => week_start_of fp.1 = w)).map Prod.snd).sum

/-- Parsed flower date of a cell, defaulting to day 0; used to state
results about rows all of whose dates parse. -/
def parsedDateD (c : SqlVal) : Int := (_parse_date_ymd c).getD 0

/-- Parsed plant count of a cell as an `Option` (`none` when `int(...)`
raises). -/
def pyCellVal (c : SqlVal) : Option Int :=
  match pyIntOfCell c with
  | .ok v => some v
  | .error _ => none

/-- Parsed plant count of a cell, defaulting to 0. -/
def cellValD (c : SqlVal) : Int := (pyCellVal c).getD 0

/-- Sample two-record table used as a concrete witness input. -/
def sampleDb : List DbRecord :=
  [{ id := 1, room := "A", plants := SqlVal.int 2, strain := "OG",
     flower_date := SqlVal.text "2024-01-01", planned := some 1 },
   { id := 2, room := "B", plants := SqlVal.int 3, strain := "GG",
     flower_date := SqlVal.text "2024-01-02", planned := none }]

/-- Lookup in the association-list model of the Python dict. -/
def lookupB : List (Int × Int) → Int → Option Int
  | [], _ => none
  | (k0, v0) :: rest, k => if k0 = k then some v0 else lookupB rest k

theorem lookupB_updateBucket (bs : List (Int × Int)) (k v j : Int) :
    lookupB (updateBucket bs k v) j =
      if j = k then some ((lookupB bs k).getD 0 + v) else lookupB bs j := by
  induction bs with
  | nil =>
    by_cases h : j = k
    · subst h; simp [updateBucket, lookupB]
    · simp [updateBucket, lookupB, h, Ne.symm h]
  | cons hd tl ih =>
    obtain ⟨k0, v0⟩ := hd
    by_cases hk : k0 = k
    · subst hk
      by_cases hj : j = k0
      · subst hj; simp [updateBucket, lookupB]
      · simp [updateBucket, lookupB, hj, Ne.symm hj]
    · by_cases hj : j = k0
      · subst hj
        simp [updateBucket, lookupB, hk, Ne.symm hk, ih]
      · simp [updateBucket, lookupB, hk, hj, ih, Ne.symm hj]

theorem lookupB_eq_none_iff (bs : List (Int × Int)) (k : Int) :
    lookupB bs k = none ↔ k ∉ bs.map Prod.fst := by
  induction bs with
  | nil => simp [lookupB]
  | cons hd tl ih =>
    obtain ⟨k0, v0⟩ := hd
    by_cases h : k0 = k
    · subst h; simp [lookupB]
    · simp [lookupB, h, ih, Ne.symm h]

theorem keys_updateBucket (bs : List (Int × Int)) (k v : Int) :
    (updateBucket bs k v).map Prod.fst =
      if (lookupB bs k).isSome then bs.map Prod.fst else bs.map Prod.fst ++ [k] := by
  induction bs with
  | nil => simp [updateBucket, lookupB]
  | cons hd tl ih =>
    obtain ⟨k0, v0⟩ := hd
    by_cases h : k0 = k
    · subst h; simp [updateBucket, lookupB]
    · simp only [updateBucket, if_neg h, List.map_cons, lookupB, ih]
      by_cases hs : (lookupB tl k).isSome
      · simp [h, hs]
      · simp [h, hs]

theorem nodup_keys_updateBucket (bs : List (Int × Int)) (k v : Int)
    (h : (bs.map Prod.fst).Nodup) : ((updateBucket bs k v).map Prod.fst).Nodup := by
  rw [keys_updateBucket]
  by_cases hs : (lookupB bs k).isSome
  · simpa [hs] using h
  · have hk : k ∉ bs.map Prod.fst := by
      rw [← lookupB_eq_none_iff]
      exact Option.not_isSome_iff_eq_none.mp hs
    simp [hs, List.nodup_append, h, hk]

theorem mem_of_lookupB_eq_some {bs : List (Int × Int)} {k v : Int}
    (h : lookupB bs k = some v) : (k, v) ∈ bs := by
  induction bs with
  | nil => simp [lookupB] at h
  | cons hd tl ih =>
    obtain ⟨k0, v0⟩ := hd
    by_cases hk : k0 = k
    · subst hk
      have hv : v0 = v := by simpa [lookupB] using h
      subst hv; exact List.mem_cons_self _ _
    · simp only [lookupB, if_neg hk] at h
      exact List.mem_cons_of_mem _ (ih h)

theorem lookupB_eq_some_of_mem {bs : List (Int × Int)} {k v : Int}
    (hnd : (bs.map Prod.fst).Nodup) (h : (k, v) ∈ bs) : lookupB bs k = some v := by
  induction bs with
  | nil => simp at h
  | cons hd tl ih =>
    obtain ⟨k0, v0⟩ := hd
    simp only [List.map_cons, List.nodup_cons] at hnd
    rcases List.mem_cons.mp h with h1 | h1
    · obtain ⟨hk, hv⟩ := Prod.mk.injEq .. ▸ h1
      simp [lookupB, hk.symm, hv]
    · have hk : k0 ≠ k := by
        intro hh
        exact hnd.1 (hh ▸ (List.mem_map.mpr ⟨(k, v), h1, rfl⟩))
      simp [lookupB, hk, ih hnd.2 h1]

theorem bucketTotal_cons (fp : Int × Int) (rest : List (Int × Int)) (j : Int) :
    bucketTotal (fp :: rest) j =
      (if week_start_of fp.1 = j then fp.2 else 0) + bucketTotal rest j := by
  by_cases h : week_start_of fp.1 = j <;>
    simp [bucketTotal, List.filter_cons, h]

theorem lookupB_bucketsFoldAux (e : Int) (raw : List (Int × Int))
    (bs : List (Int × Int)) (j : Int) :
    (lookupB (bucketsFoldAux e bs raw) j).getD 0 =
      (lookupB bs j).getD 0 + (if e ≤ j then bucketTotal raw j else 0) := by
  induction raw generalizing bs with
  | nil => simp [bucketsFoldAux, bucketTotal]
  | cons fp rest ih =>
    simp only [bucketsFoldAux]
    rw [ih, bucketTotal_cons]
    by_cases hws : e ≤ week_start_of fp.1
    · rw [if_pos hws, lookupB_updateBucket]
      by_cases hj : j = week_start_of fp.1
      · rw [if_pos hj]
        have hej : e ≤ j := hj ▸ hws
        simp [hej, hj.symm]
        omega
      · rw [if_neg hj]
        have hne : week_start_of fp.1 ≠ j := fun hh => hj hh.symm
        simp [hne]
    · rw [if_neg hws]
      by_cases hej : e ≤ j
      · have hne : week_start_of fp.1 ≠ j := by
          intro hh; exact hws (hh ▸ hej)
        simp [hej, hne]
      · simp [hej]

theorem lookupB_isSome_updateBucket (bs : List (Int × Int)) (k v j : Int) :
    (lookupB (updateBucket bs k v) j).isSome = true ↔
      j = k ∨ (lookupB bs j).isSome = true := by
  rw [lookupB_updateBucket]
  by_cases h : j = k <;> simp [h]

theorem lookupB_isSome_bucketsFoldAux (e : Int) (raw : List (Int × Int))
    (bs : List (Int × Int)) (j : Int) :
    (lookupB (bucketsFoldAux e bs raw) j).isSome = true ↔
      (lookupB bs j).isSome = true ∨
        (e ≤ j ∧ ∃ fp ∈ raw, week_start_of fp.1 = j) := by
  induction raw generalizing bs with
  | nil => simp [bucketsFoldAux]
  | cons fp rest ih =>
    simp only [bucketsFoldAux]
    rw [ih]
    by_cases hws : e ≤ week_start_of fp.1
    · rw [if_pos hws, lookupB_isSome_updateBucket]
      constructor
      · rintro (⟨hj | hj⟩ | ⟨hej, fp', hm, hfp'⟩)
        · exact Or.inr ⟨hj ▸ hws, fp, List.mem_cons_self _ _, hj.symm⟩
        · exact Or.inl hj
        · exact Or.inr ⟨hej, fp', List.mem_cons_of_mem _ hm, hfp'⟩
      · rintro (hj | ⟨hej, fp', hm, hfp'⟩)
        · exact Or.inl (Or.inr hj)
        · rcases List.mem_cons.mp hm with hm1 | hm1
          · exact Or.inl (Or.inl (hm1 ▸ hfp').symm)
          · exact Or.inr ⟨hej, fp', hm1, hfp'⟩
    · rw [if_neg hws]
      constructor
      · rintro (hj | ⟨hej, fp', hm, hfp'⟩)
        · exact Or.inl hj
        · exact Or.inr ⟨hej, fp', List.mem_cons_of_mem _ hm, hfp'⟩
      · rintro (hj | ⟨hej, fp', hm, hfp'⟩)
        · exact Or.inl hj
        · rcases List.mem_cons.mp hm with hm1 | hm1
          · exact absurd (hm1 ▸ hfp' ▸ hej) hws
          · exact Or.inr ⟨hej, fp', hm1, hfp'⟩

theorem nodup_keys_bucketsFoldAux (e : Int) (raw : List (Int × Int))
    (bs : List (Int × Int)) (h : (bs.map Prod.fst).Nodup) :
    ((bucketsFoldAux e bs raw).map Prod.fst).Nodup := by
  induction raw generalizing bs with
  | nil => simpa [bucketsFoldAux] using h
  | cons fp rest ih =>
    simp only [bucketsFoldAux]
    by_cases hws : e ≤ week_start_of fp.1
    · rw [if_pos hws]
      exact ih _ (nodup_keys_updateBucket _ _ _ h)
    · rw [if_neg hws]
      exact ih _ h

theorem get_clone_source_rows_of_valid (rows : List (SqlVal × SqlVal))
    (h : ∀ r ∈ rows, (_parse_date_ymd r.1).isSome = true ∧
        pyCellVal r.2 ≠ none ∧ pyCellVal r.2 ≠ some 0) :
    get_clone_source_rows rows =
      .ok (rows.map (fun r => (parsedDateD r.1, cellValD r.2))) := by
  induction rows with
  | nil => rfl
  | cons r rest ih =>
    obtain ⟨h1, h2, h3⟩ := h r (List.mem_cons_self _ _)
    have ihr := ih (fun r' hr' => h r' (List.mem_cons_of_mem _ hr'))
    obtain ⟨f, hf⟩ := Option.isSome_iff_exists.mp h1
    cases hcell : pyIntOfCell r.2 with
    | error msg => exact absurd (by simp [pyCellVal, hcell]) h2
    | ok pl =>
      have hpl : pl ≠ 0 := by
        intro hh
        exact h3 (by simp [pyCellVal, hcell, hh])
      simp [get_clone_source_rows, hcell, ihr, hf, hpl,
        parsedDateD, cellValD, pyCellVal]

theorem compute_clone_demand_entries (today pw : Int) (rows : List (SqlVal × SqlVal))
    (out : List CloneEntry) (h : compute_clone_demand_grouped today pw rows = .ok out) :
    ∀ e ∈ out, ∃ k v, e = mkCloneEntry k v := by
  unfold compute_clone_demand_grouped at h
  split at h
  · cases h
  · split at h
    · cases h
      intro e he
      cases he
    · cases h
      intro e he
      obtain ⟨kv, _, hkv⟩ := List.mem_map.mp he
      exact ⟨kv.1, kv.2, hkv.symm⟩

theorem startsWithCL_append (l r : List Char) : startsWithCL l (l ++ r) = true := by
  induction l with
  | nil => rfl
  | cons c cs ih => simp [startsWithCL, ih]

theorem containsCL_of_startsWith {pat l : List Char}
    (h : startsWithCL pat l = true) : containsCL pat l = true := by
  cases l with
  | nil => simpa [containsCL] using h
  | cons c cs => simp [containsCL, h]

theorem containsCL_append_right (pat s t : List Char)
    (h : containsCL pat t = true) : containsCL pat (s ++ t) = true := by
  induction s with
  | nil => simpa using h
  | cons c cs ih => simp [containsCL, ih]

theorem containsCL_append_left (pat t : List Char) (s : List Char)
    (h : startsWithCL pat t = true) : containsCL pat (s ++ t) = true :=
  containsCL_append_right pat s t (containsCL_of_startsWith h)

theorem pyWeekday_nonneg (d : Int) : 0 ≤ pyWeekday d :=
  Int.emod_nonneg _ (by norm_num)

theorem pyWeekday_lt_seven (d : Int) : pyWeekday d < 7 :=
  Int.emod_lt_of_pos _ (by norm_num)

theorem pyWeekday_of_week_start (d : Int) : pyWeekday (d - pyWeekday d) = 0 := by
  have hsum := Int.ediv_add_emod (d + 3) 7
  unfold pyWeekday
  have h7 : d - (d + 3) % 7 + 3 = 7 * ((d + 3) / 7) := by omega
  rw [h7]
  exact Int.mul_emod_right 7 _

/-- Claim C8: for every date `d`, the clone-start date `(d + 9 weeks) - 9
weeks` equals `d` itself, and the record's forecast bucket is exactly the
Monday of the week containing `d`: the bucket is `d` minus its weekday
offset, lies at most six days before `d`, and is itself a Monday. -/
theorem clone_start_roundtrip (d : Int) :
    clone_start_of d = d ∧
    week_start_of d = d - pyWeekday d ∧
    week_start_of d ≤ d ∧ d - week_start_of d < 7 ∧
    pyWeekday (week_start_of d) = 0 := by
  have h1 : clone_start_of d = d := by
    unfold clone_start_of clone_harvest timedeltaWeeks NINE_WEEKS
    ring
  have h2 : week_start_of d = d - pyWeekday d := by
    unfold week_start_of
    rw [h1]
  refine ⟨h1, h2, ?_, ?_, ?_⟩
  · rw [h2]
    have := pyWeekday_nonneg d
    omega
  · rw [h2]
    have := pyWeekday_lt_seven d
    omega
  · rw [h2]
    exact pyWeekday_of_week_start d

/-- Claim C4: for a flowering date exactly `N` days before today, the
derived week number equals `clamp(1, 9, N // 7 + 1)`; in particular a
flowering date 10 days ago yields week 2.  The week derivation is
modelled from the spec (see `record_week`): no file under src/ computes
it. -/
theorem derived_week_formula (today flower N : Int) (h : flower = today - N) :
    record_week today (some flower) = max 1 (min 9 (N / 7 + 1)) ∧
    record_week today (some (today - 10)) = 2 := by
  constructor
  · subst h
    have hN : today - (today - N) = N := by ring
    simp [record_week, hN]
  · have h10 : today - (today - 10) = 10 := by ring
    simp [record_week, h10]

/-- Witness for C4 at `today = 19723` (2024-01-01) and a flowering date 10
days earlier. -/
theorem derived_week_formula_witness :
    record_week 19723 (some 19713) = max 1 (min 9 ((10 : Int) / 7 + 1)) ∧
    record_week 19723 (some (19723 - 10)) = 2 :=
  derived_week_formula 19723 19713 10 (by decide)

/-- Claim C5: for every record whose flowering date parses, the projected
harvest date is the flowering date plus 63 days — on the dashboard listing
(`index`) and as the per-record harvest step of the clone-demand forecast
— independently of any week clamping. -/
theorem harvest_date_projection (today : Int) (future_only : Bool)
    (db : List DbRecord) (row : IndexRow) (d : Int)
    (hrow : row ∈ index_rows today future_only db)
    (hd : index_parse_flower row.flower_date = some d) :
    row.harvest = some (d + 63) ∧ ∀ x : Int, clone_harvest x = x + 63 := by
  refine ⟨?_, fun x => by unfold clone_harvest timedeltaWeeks NINE_WEEKS; ring⟩
  obtain ⟨r, hr, hf⟩ := List.mem_filterMap.mp hrow
  cases hp : index_parse_flower r.flower_date with
  | some fd =>
    rw [hp] at hf
    dsimp only at hf
    split at hf
    · cases hf
    · have hrow_eq := Option.some.inj hf
      have hfl : row.flower_date = r.flower_date := by rw [← hrow_eq]
      have hfd : fd = d := by
        rw [hfl, hp] at hd
        exact Option.some.inj hd
      rw [← hrow_eq]
      subst hfd
      show some (fd + timedeltaWeeks 9) = some (fd + 63)
      norm_num [timedeltaWeeks]
  | none =>
    rw [hp] at hf
    dsimp only at hf
    have hrow_eq := Option.some.inj hf
    have hfl : row.flower_date = r.flower_date := by rw [← hrow_eq]
    rw [hfl, hp] at hd
    cases hd

/-- Witness for C5 on a one-record table flowering on 2024-01-01 with
`today` the same day. -/
theorem harvest_date_projection_witness :
    ({ id := 1, room := "A", plants := SqlVal.int 3, strain := "OG",
       flower_date := SqlVal.text "2024-01-01", harvest := some 19786,
       days := some 63, planned := 0 } : IndexRow).harvest = some (19723 + 63) ∧
    ∀ x : Int, clone_harvest x = x + 63 :=
  harvest_date_projection 19723 false
    [{ id := 1, room := "A", plants := SqlVal.int 3, strain := "OG",
       flower_date := SqlVal.text "2024-01-01", planned := some 0 }]
    { id := 1, room := "A", plants := SqlVal.int 3, strain := "OG",
      flower_date := SqlVal.text "2024-01-01", harvest := some 19786,
      days := some 63, planned := 0 }
    19723 (by decide) (by decide)

/-- Claim C6: a record whose flower_date cell does not parse as a date
does not fail the request: the dashboard still lists it (with blank
harvest and days, in every mode), and the derived week number defaults
to 1 (the default is modelled from the spec, see `record_week`). -/
theorem unparseable_date_defaults (today : Int) (future_only : Bool)
    (db : List DbRecord) (r : DbRecord) (hr : r ∈ db)
    (hp : index_parse_flower r.flower_date = none) :
    (∃ row ∈ index_rows today future_only db,
        row.id = r.id ∧ row.room = r.room ∧ row.plants = r.plants ∧
        row.strain = r.strain ∧ row.harvest = none ∧ row.days = none) ∧
    record_week today (index_parse_flower r.flower_date) = 1 := by
  constructor
  · refine ⟨{ id := r.id, room := r.room, plants := r.plants, strain := r.strain,
              flower_date := r.flower_date, harvest := none, days := none,
              planned := r.planned.getD 0 }, ?_, rfl, rfl, rfl, rfl, rfl, rfl⟩
    unfold index_rows
    exact List.mem_filterMap.mpr ⟨r, hr, by rw [hp]⟩
  · rw [hp]
    rfl

/-- Witness for C6 on a record with flower date `"soon"`. -/
theorem unparseable_date_defaults_witness :
    (∃ row ∈ index_rows 19723 true
        [{ id := 7, room := "B", plants := SqlVal.int 2, strain := "GG",
           flower_date := SqlVal.text "soon", planned := none }],
        row.id = (7 : Int) ∧ row.room = "B" ∧ row.plants = SqlVal.int 2 ∧
        row.strain = "GG" ∧ row.harvest = none ∧ row.days = none) ∧
    record_week 19723 (index_parse_flower (SqlVal.text "soon")) = 1 :=
  unparseable_date_defaults 19723 true
    [{ id := 7, room := "B", plants := SqlVal.int 2, strain := "GG",
       flower_date := SqlVal.text "soon", planned := none }]
    { id := 7, room := "B", plants := SqlVal.int 2, strain := "GG",
      flower_date := SqlVal.text "soon", planned := none }
    (by decide) (by decide)

/-- Claim C3: the advice lookup for program `"athena"` and week 1 selects
the fixed transplant-support line; any week greater than 10 produces the
same advice as week 10; and the clamped week index always lies in
`[1, 10]`. -/
theorem advisor_lookup_clamp (program notes : String) (w w2 : Int) (hw : 10 < w) :
    adviceTip "athena" 1 =
      "Transplant support, low EC 1.6–1.8, silica light, no heavy PK." ∧
    local_heuristic_advice program w notes = local_heuristic_advice program 10 notes ∧
    1 ≤ pyClampWeek w2 ∧ pyClampWeek w2 ≤ 10 := by
  have hcl : pyClampWeek w = pyClampWeek 10 := by
    unfold pyClampWeek
    rw [if_neg (by omega : w ≠ 0), if_neg (by norm_num : (10 : Int) ≠ 0)]
    rw [min_eq_right (by omega : (10 : Int) ≤ w), min_self]
  refine ⟨by rfl, ?_, ?_, ?_⟩
  · unfold local_heuristic_advice adviceTip
    rw [hcl]
  · unfold pyClampWeek
    exact le_max_left _ _
  · unfold pyClampWeek
    exact max_le (by norm_num) (min_le_right _ _)

/-- Witness for C3 at week 11 (and a second week input of -5 for the
clamp bounds). -/
theorem advisor_lookup_clamp_witness :
    adviceTip "athena" 1 =
      "Transplant support, low EC 1.6–1.8, silica light, no heavy PK." ∧
    local_heuristic_advice "athena" 11 "" = local_heuristic_advice "athena" 10 "" ∧
    1 ≤ pyClampWeek (-5) ∧ pyClampWeek (-5) ≤ 10 :=
  advisor_lookup_clamp "athena" "" 11 (-5) (by norm_num)

theorem string_data_append (s t : String) : (s ++ t).data = s.data ++ t.data := rfl

theorem startsWithCL_self (l : List Char) : startsWithCL l l = true := by
  have := startsWithCL_append l []
  simpa using this

theorem containsCL_advice_of_extra (program : String) (week : Int) (notes : String)
    (pat : List Char) (h : containsCL pat (advice_extra notes).toList = true) :
    containsCL pat (local_heuristic_advice program week notes).toList = true := by
  unfold local_heuristic_advice
  show containsCL pat (String.data _) = true
  rw [string_data_append]
  exact containsCL_append_right pat _ _ h

/-- Claim C7: notes containing `"burn"` in any letter case make the advice
output contain the tip-burn remediation line; likewise `"pale"` or
`"yellow"` the magnesium line, and `"lockout"` the pH/runoff reset line.
Containment of the lowercased keyword in the lowercased notes is exactly
the program's `"burn" in notes.lower()` test. -/
theorem notes_keyword_annotations (program : String) (week : Int) (notes : String) :
    (containsCL "burn".toList (pyLowerCL notes) = true →
      containsCL burnLine.toList (local_heuristic_advice program week notes).toList = true) ∧
    ((containsCL "pale".toList (pyLowerCL notes) = true ∨
        containsCL "yellow".toList (pyLowerCL notes) = true) →
      containsCL paleLine.toList (local_heuristic_advice program week notes).toList = true) ∧
    (containsCL "lockout".toList (pyLowerCL notes) = true →
      containsCL lockoutLine.toList (local_heuristic_advice program week notes).toList = true) := by
  have hextra : ∀ hne : notes ≠ "",
      (advice_extra notes).data =
        (if containsCL "burn".toList (pyLowerCL notes) then burnLine else "").data ++
        ((if containsCL "pale".toList (pyLowerCL notes) ||
             containsCL "yellow".toList (pyLowerCL notes) then paleLine else "").data ++
         (if containsCL "lockout".toList (pyLowerCL notes) ||
             containsCL "high ec".toList (pyLowerCL notes) then lockoutLine else "").data) := by
    intro hne
    unfold advice_extra
    rw [if_neg hne]
    rw [string_data_append, string_data_append]
  refine ⟨?_, ?_, ?_⟩
  · intro h
    have hne : notes ≠ "" := by
      intro he
      subst he
      exact absurd h (by decide)
    apply containsCL_advice_of_extra
    show containsCL _ (advice_extra notes).data = true
    rw [hextra hne, if_pos h]
    exact containsCL_of_startsWith (startsWithCL_append _ _)
  · intro h
    have hb : (containsCL "pale".toList (pyLowerCL notes) ||
        containsCL "yellow".toList (pyLowerCL notes)) = true :=
      Bool.or_eq_true _ _ |>.mpr h
    have hne : notes ≠ "" := by
      intro he
      subst he
      rcases h with h | h <;> exact absurd h (by decide)
    apply containsCL_advice_of_extra
    show containsCL _ (advice_extra notes).data = true
    rw [hextra hne, if_pos hb]
    exact containsCL_append_right _ _ _
      (containsCL_of_startsWith (startsWithCL_append _ _))
  · intro h
    have hb : (containsCL "lockout".toList (pyLowerCL notes) ||
        containsCL "high ec".toList (pyLowerCL notes)) = true :=
      Bool.or_eq_true _ _ |>.mpr (Or.inl h)
    have hne : notes ≠ "" := by
      intro he
      subst he
      exact absurd h (by decide)
    apply containsCL_advice_of_extra
    show containsCL _ (advice_extra notes).data = true
    rw [hextra hne, if_pos hb]
    refine containsCL_append_right _ _ _ (containsCL_append_right _ _ _ ?_)
    exact containsCL_of_startsWith (startsWithCL_self _)

/-- Witness for C7 on notes mentioning all three symptom keywords in mixed
case. -/
theorem notes_keyword_annotations_witness :
    containsCL burnLine.toList
      (local_heuristic_advice "athena" 5 "tip BURN, PaLe tops, lockout?").toList = true ∧
    containsCL paleLine.toList
      (local_heuristic_advice "athena" 5 "tip BURN, PaLe tops, lockout?").toList = true ∧
    containsCL lockoutLine.toList
      (local_heuristic_advice "athena" 5 "tip BURN, PaLe tops, lockout?").toList = true := by
  obtain ⟨h1, h2, h3⟩ :=
    notes_keyword_annotations "athena" 5 "tip BURN, PaLe tops, lockout?"
  exact ⟨h1 (by decide), h2 (Or.inl (by decide)), h3 (by decide)⟩

/-- Claim C9: toggling the planned flag of an existing record flips only
that record's `planned` field (0 if it was 1, and 1 otherwise, so the
result is always 0 or 1) and leaves its other fields and every other
record unchanged; a nonexistent id changes nothing.  Ids are unique
(`id INTEGER PRIMARY KEY`). -/
theorem toggle_planned_frame (db : List DbRecord) (rid : Int)
    (hnd : (db.map (fun r => r.id)).Nodup) :
    (∀ i : Nat, (toggle_planned rid db)[i]? =
        (db[i]?).map (fun r =>
          if r.id = rid then
            { r with planned := some (if r.planned.getD 0 = 1 then 0 else 1) }
          else r)) ∧
    (∀ row ∈ toggle_planned rid db, row.id = rid →
        row.planned = some 0 ∨ row.planned = some 1) ∧
    ((∀ r ∈ db, r.id ≠ rid) → toggle_planned rid db = db) := by
  have key : ∀ i : Nat, (toggle_planned rid db)[i]? =
      (db[i]?).map (fun r =>
        if r.id = rid then
          { r with planned := some (if r.planned.getD 0 = 1 then 0 else 1) }
        else r) := by
    intro i
    unfold toggle_planned
    cases hfind : db.find? (fun r => r.id == rid) with
    | none =>
      have hall : ∀ r ∈ db, r.id ≠ rid := by
        intro r hr
        have := List.find?_eq_none.mp hfind r hr
        simpa using this
      cases hdb : db[i]? with
      | none => simp [hdb]
      | some r =>
        have hr : r ∈ db := List.getElem?_mem hdb
        simp [hdb, hall r hr]
    | some row =>
      have hrowid : row.id = rid := by simpa using List.find?_some hfind
      have hrowmem : row ∈ db := List.mem_of_find?_eq_some hfind
      rw [List.getElem?_map]
      cases hdb : db[i]? with
      | none => simp
      | some r =>
        have hr : r ∈ db := List.getElem?_mem hdb
        simp only [Option.map_some']
        by_cases hid : r.id = rid
        · have hreq : r = row :=
            List.inj_on_of_nodup_map hnd hr hrowmem (by rw [hid, hrowid])
          rw [if_pos hid, if_pos hid, hreq]
        · rw [if_neg hid, if_neg hid]
  refine ⟨key, ?_, ?_⟩
  · intro row hrow hid
    obtain ⟨i, hi⟩ := List.getElem?_of_mem hrow
    have := key i
    rw [hi] at this
    cases hdb : db[i]? with
    | none => rw [hdb] at this; cases this
    | some r =>
      rw [hdb] at this
      simp only [Option.map_some', Option.some.injEq] at this
      by_cases hr : r.id = rid
      · rw [if_pos hr] at this
        by_cases hp : r.planned.getD 0 = 1
        · left; rw [this]; simp [hp]
        · right; rw [this]; simp [hp]
      · rw [if_neg hr] at this
        exact absurd (this ▸ hid) hr
  · intro hall
    unfold toggle_planned
    have hfind : db.find? (fun r => r.id == rid) = none := by
      rw [List.find?_eq_none]
      intro r hr
      simpa using hall r hr
    rw [hfind]

/-- Witness for C9 on a two-record table, toggling id 1 whose planned flag
is 1. -/
theorem toggle_planned_frame_witness :
    (∀ i : Nat,
      (toggle_planned 1 sampleDb)[i]? =
      (sampleDb[i]?).map
        (fun r =>
          if r.id = 1 then
            { r with planned := some (if r.planned.getD 0 = 1 then 0 else 1) }
          else r)) ∧
    (∀ row ∈ toggle_planned 1 sampleDb,
      row.id = 1 → row.planned = some 0 ∨ row.planned = some 1) ∧
    ((∀ r ∈ sampleDb, r.id ≠ 1) → toggle_planned 1 sampleDb = sampleDb) :=
  toggle_planned_frame sampleDb 1 (by decide)

/-- Claim C1: on records that all carry a parseable flowering date and a
nonzero plant count, the clone-demand forecast succeeds, its output has a
bucket for a Monday `w` exactly when `w` is the floored clone-start week
of some record and lies at or after the cutoff `today` minus `max 0 pw`
past weeks, and each emitted bucket's plant figure is the sum of the
plant counts of the records falling in that bucket. -/
theorem clone_demand_grouped_buckets (today pw : Int) (rows : List (SqlVal × SqlVal))
    (h : ∀ r ∈ rows, (_parse_date_ymd r.1).isSome = true ∧
        pyCellVal r.2 ≠ none ∧ pyCellVal r.2 ≠ some 0) :
    ∃ out, compute_clone_demand_grouped today pw rows = .ok out ∧
      (∀ w : Int, (∃ e ∈ out, e.week = w) ↔
        (earliest_week_start today pw ≤ w ∧
          ∃ r ∈ rows, (_parse_date_ymd r.1).map week_start_of = some w)) ∧
      (∀ e ∈ out, e.plants =
        bucketTotal (rows.map (fun r => (parsedDateD r.1, cellValD r.2))) e.week) := by
  have hget := get_clone_source_rows_of_valid rows h
  set raw := rows.map (fun r => (parsedDateD r.1, cellValD r.2)) with hrawdef
  have hpm : ∀ w : Int,
      (∃ fp ∈ raw, week_start_of fp.1 = w) ↔
      (∃ r ∈ rows, (_parse_date_ymd r.1).map week_start_of = some w) := by
    intro w
    constructor
    · rintro ⟨fp, hfp, hw⟩
      obtain ⟨r, hr, hfr⟩ := List.mem_map.mp hfp
      obtain ⟨f, hf⟩ := Option.isSome_iff_exists.mp (h r hr).1
      refine ⟨r, hr, ?_⟩
      rw [hf]
      have hp : parsedDateD r.1 = f := by simp [parsedDateD, hf]
      rw [← hfr] at hw
      simp only [← hw, hp]
      rfl
    · rintro ⟨r, hr, hmap⟩
      obtain ⟨f, hf⟩ := Option.isSome_iff_exists.mp (h r hr).1
      rw [hf] at hmap
      simp only [Option.map_some', Option.some.injEq] at hmap
      refine ⟨(parsedDateD r.1, cellValD r.2), List.mem_map.mpr ⟨r, hr, rfl⟩, ?_⟩
      have hp : parsedDateD r.1 = f := by simp [parsedDateD, hf]
      rw [hp, hmap]
  by_cases hraw : raw = []
  · have hrows : rows = [] := List.map_eq_nil_iff.mp (hrawdef ▸ hraw)
    subst hrows
    refine ⟨[], by simp [compute_clone_demand_grouped, get_clone_source_rows], ?_, ?_⟩
    · intro w
      simp
    · intro e he
      cases he
  · have hcompute : compute_clone_demand_grouped today pw rows =
        .ok ((List.insertionSort (fun a b : Int × Int => a.1 ≤ b.1)
               (bucketsFold (earliest_week_start today pw) raw)).map
             (fun kv => mkCloneEntry kv.1 kv.2)) := by
      unfold compute_clone_demand_grouped
      rw [hget]
      dsimp only
      rw [if_neg hraw]
    set e0 := earliest_week_start today pw with he0
    set buckets := bucketsFold e0 raw with hbdef
    have hperm : (List.insertionSort (fun a b : Int × Int => a.1 ≤ b.1) buckets).Perm buckets :=
      List.perm_insertionSort _ _
    have hnd : (buckets.map Prod.fst).Nodup := by
      rw [hbdef]
      unfold bucketsFold
      exact nodup_keys_bucketsFoldAux _ _ [] (by simp)
    have hfold_isSome : ∀ w : Int, (lookupB buckets w).isSome = true ↔
        (e0 ≤ w ∧ ∃ fp ∈ raw, week_start_of fp.1 = w) := by
      intro w
      rw [hbdef]
      unfold bucketsFold
      rw [lookupB_isSome_bucketsFoldAux]
      simp [lookupB]
    have hfold_val : ∀ w : Int, (lookupB buckets w).getD 0 =
        if e0 ≤ w then bucketTotal raw w else 0 := by
      intro w
      rw [hbdef]
      unfold bucketsFold
      rw [lookupB_bucketsFoldAux]
      simp [lookupB]
    refine ⟨_, hcompute, ?_, ?_⟩
    · intro w
      constructor
      · rintro ⟨e, he, hew⟩
        obtain ⟨kv, hkvmem, hkv⟩ := List.mem_map.mp he
        have hkvb : kv ∈ buckets := hperm.mem_iff.mp hkvmem
        have hlk : lookupB buckets kv.1 = some kv.2 := lookupB_eq_some_of_mem hnd hkvb
        have hw : kv.1 = w := by rw [← hkv] at hew; exact hew
        have hsome : (lookupB buckets w).isSome = true := by
          rw [← hw, hlk]
          rfl
        obtain ⟨hcut, hex⟩ := (hfold_isSome w).mp hsome
        exact ⟨hcut, (hpm w).mp hex⟩
      · rintro ⟨hcut, hex⟩
        have hsome : (lookupB buckets w).isSome = true :=
          (hfold_isSome w).mpr ⟨hcut, (hpm w).mpr hex⟩
        obtain ⟨v, hv⟩ := Option.isSome_iff_exists.mp hsome
        have hmem : (w, v) ∈ buckets := mem_of_lookupB_eq_some hv
        refine ⟨mkCloneEntry w v, List.mem_map.mpr
          ⟨(w, v), hperm.mem_iff.mpr hmem, rfl⟩, rfl⟩
    · intro e he
      obtain ⟨kv, hkvmem, hkv⟩ := List.mem_map.mp he
      have hkvb : kv ∈ buckets := hperm.mem_iff.mp hkvmem
      have hlk : lookupB buckets kv.1 = some kv.2 := lookupB_eq_some_of_mem hnd hkvb
      have hsome : (lookupB buckets kv.1).isSome = true := by rw [hlk]; rfl
      have hcut : e0 ≤ kv.1 := ((hfold_isSome kv.1).mp hsome).1
      have hval : kv.2 = bucketTotal raw kv.1 := by
        have := hfold_val kv.1
        rw [hlk, if_pos hcut] at this
        simpa using this
      rw [← hkv]
      show (mkCloneEntry kv.1 kv.2).plants = bucketTotal raw (mkCloneEntry kv.1 kv.2).week
      exact hval

/-- Witness for C1 on a single record of ten plants flowering on 2024-01-01
with `today` the same Monday and a three-week lookback. -/
theorem clone_demand_grouped_buckets_witness :
    ∃ out, compute_clone_demand_grouped 19723 3
        [(SqlVal.text "2024-01-01", SqlVal.int 10)] = .ok out ∧
      (∀ w : Int, (∃ e ∈ out, e.week = w) ↔
        (earliest_week_start 19723 3 ≤ w ∧
          ∃ r ∈ [(SqlVal.text "2024-01-01", SqlVal.int 10)],
            (_parse_date_ymd r.1).map week_start_of = some w)) ∧
      (∀ e ∈ out, e.plants =
        bucketTotal ([(SqlVal.text "2024-01-01", SqlVal.int 10)].map
          (fun r => (parsedDateD r.1, cellValD r.2))) e.week) :=
  clone_demand_grouped_buckets 19723 3 [(SqlVal.text "2024-01-01", SqlVal.int 10)]
    (by decide)

/-- Counterexample to claim C2 as stated: the code computes the `p5` column
with Python `round`, which rounds the exact tie `10 * 1.05 = 10.5` to the
even integer 10, whereas rounding ties away from zero would give 11. -/
theorem clone_scaling_ties_counterexample :
    compute_clone_demand_grouped 19723 3 [(SqlVal.text "2024-01-01", SqlVal.int 10)] =
      .ok [mkCloneEntry 19723 10] ∧
    (mkCloneEntry 19723 10).p5 = 10 ∧
    roundHalfAwayPos (10 * 105) 100 = 11 ∧
    (10 : Int) ≠ 11 := by
  refine ⟨by decide, by decide, by decide, by decide⟩

/-- Claim C2, amended: each forecast bucket of total `T` carries the five
numbers `T` and `T` scaled by 1.05, 1.10, 1.15 and 1.20 in binary64
arithmetic, rounded to the nearest integer by Python `round` — ties to
even, not away from zero; in particular a bucket of 15 plants still has
`p20 = 18`, while a bucket of 10 plants has `p5 = 10` (not 11). -/
theorem clone_scaling_half_even (today pw : Int) (rows : List (SqlVal × SqlVal))
    (out : List CloneEntry) (e : CloneEntry)
    (h : compute_clone_demand_grouped today pw rows = .ok out) (he : e ∈ out) :
    e.p5 = pyScale e.plants c105 ∧ e.p10 = pyScale e.plants c110 ∧
    e.p15 = pyScale e.plants c115 ∧ e.p20 = pyScale e.plants c120 ∧
    pyScale 15 c120 = 18 ∧ pyScale 10 c105 = 10 := by
  obtain ⟨k, v, hkv⟩ := compute_clone_demand_entries today pw rows out h e he
  subst hkv
  exact ⟨rfl, rfl, rfl, rfl, by decide, by decide⟩

/-- Witness for C2 (amended) on the spec's own example: records of 10 and 5
plants flowering on 2024-01-01 and 2024-01-03 share the Monday bucket
2024-01-01 with total 15. -/
theorem clone_scaling_half_even_witness :
    (mkCloneEntry 19723 15).p5 = pyScale (mkCloneEntry 19723 15).plants c105 ∧
    (mkCloneEntry 19723 15).p10 = pyScale (mkCloneEntry 19723 15).plants c110 ∧
    (mkCloneEntry 19723 15).p15 = pyScale (mkCloneEntry 19723 15).plants c115 ∧
    (mkCloneEntry 19723 15).p20 = pyScale (mkCloneEntry 19723 15).plants c120 ∧
    pyScale 15 c120 = 18 ∧ pyScale 10 c105 = 10 :=
  clone_scaling_half_even 19723 3
    [(SqlVal.text "2024-01-01", SqlVal.int 10), (SqlVal.text "2024-01-03", SqlVal.int 5)]
    [mkCloneEntry 19723 15] (mkCloneEntry 19723 15) (by decide) (by decide)

/-- Counterexample to claim C10 as stated: a record with the non-numeric
plant count `"abc"` is not silently excluded from the forecast — the
`ValueError` raised by `int` escapes `get_clone_source_rows` (both the
`try` and the `except` arm re-run the same conversion), so the whole
forecast fails instead of returning the forecast of the remaining
records. -/
theorem clone_source_nonnumeric_counterexample :
    compute_clone_demand_grouped 19723 3
        [(SqlVal.text "2024-01-01", SqlVal.text "abc"),
         (SqlVal.text "2024-01-01", SqlVal.int 5)] =
      .error "invalid literal for int()" ∧
    compute_clone_demand_grouped 19723 3 [(SqlVal.text "2024-01-01", SqlVal.int 5)] =
      .ok [mkCloneEntry 19723 5] ∧
    (PyResult.error "invalid literal for int()" :
        PyResult (List CloneEntry)) ≠ .ok [mkCloneEntry 19723 5] := by
  refine ⟨by decide, by decide, by decide⟩

/-- Claim C10, amended: a record whose plant count converts to 0 (zero,
NULL or empty text), or whose flowering date is missing or unparseable
while its plant count converts at all, contributes nothing to the
forecast wherever it sits among the fetched rows — dropping it leaves the
output unchanged.  A record with a non-numeric plant count instead
aborts the whole forecast with an error (see the counterexample). -/
theorem clone_source_exclusion (today pw : Int) (r : SqlVal × SqlVal)
    (rows1 rows2 : List (SqlVal × SqlVal))
    (h : pyIntOfCell r.2 = .ok 0 ∨
        (_parse_date_ymd r.1 = none ∧ pyCellVal r.2 ≠ none)) :
    compute_clone_demand_grouped today pw (rows1 ++ r :: rows2) =
      compute_clone_demand_grouped today pw (rows1 ++ rows2) := by
  have hskip : ∀ rows1 : List (SqlVal × SqlVal),
      get_clone_source_rows (rows1 ++ r :: rows2) =
        get_clone_source_rows (rows1 ++ rows2) := by
    intro rows1
    induction rows1 with
    | nil =>
      simp only [List.nil_append]
      rcases h with h0 | ⟨hpn, hcv⟩
      · rw [get_clone_source_rows, h0]
        cases hrest : get_clone_source_rows rows2 with
        | error msg => rfl
        | ok acc =>
          cases hf : _parse_date_ymd r.1 <;> simp [hf]
      · cases hcell : pyIntOfCell r.2 with
        | error msg => exact absurd (by simp [pyCellVal, hcell]) hcv
        | ok pl =>
          rw [get_clone_source_rows, hcell]
          cases hrest : get_clone_source_rows rows2 with
          | error msg => rfl
          | ok acc => simp [hpn]
    | cons r' rest ih =>
      simp only [List.cons_append]
      rw [get_clone_source_rows, get_clone_source_rows, ih]
  unfold compute_clone_demand_grouped
  rw [hskip]

/-- Witness for C10 (amended): dropping a zero-plant record sitting
between two counted records leaves the forecast unchanged. -/
theorem clone_source_exclusion_witness :
    compute_clone_demand_grouped 19723 3
        [(SqlVal.text "2024-01-01", SqlVal.int 5),
         (SqlVal.text "2024-01-01", SqlVal.int 0),
         (SqlVal.text "2024-01-08", SqlVal.int 7)] =
      compute_clone_demand_grouped 19723 3
        [(SqlVal.text "2024-01-01", SqlVal.int 5),
         (SqlVal.text "2024-01-08", SqlVal.int 7)] :=
  clone_source_exclusion 19723 3 (SqlVal.text "2024-01-01", SqlVal.int 0)
    [(SqlVal.text "2024-01-01", SqlVal.int 5)]
    [(SqlVal.text "2024-01-08", SqlVal.int 7)] (Or.inl (by decide))

